import Mathlib

/-!
# BatteryLevel measurement via ADC

A shallow embedding of `firmware/master/stm32/batterylevel_adc.cpp`.

The module owns one word of state, `lastReading`, and talks to three
collaborators whose code lives elsewhere: the pin it configures, the ADC
driver and the power manager.  The embedding keeps the word, the three
settings the module writes into its collaborators, and a chronological record
of the calls it makes to them, each with the value the word holds at the
moment of the call.  Arithmetic on the C type `unsigned` is arithmetic on
`Nat` reduced modulo `2 ^ 32`.
-/

namespace BatteryLevel

/-! ## Machine arithmetic -/

/-- Number of values of the C type `unsigned` on the target (32 bits). -/
def UINT_RANGE : Nat := 2 ^ 32

/-- Subtraction of two `unsigned` values: the difference wraps modulo `2 ^ 32`. -/
def usub (a b : Nat) : Nat := (a % UINT_RANGE + UINT_RANGE - b % UINT_RANGE) % UINT_RANGE

/-- Multiplication of two `unsigned` values: the product wraps modulo `2 ^ 32`. -/
def umul (a b : Nat) : Nat := (a * b) % UINT_RANGE

/-! ## Constants -/

/-- Raw reading of a full battery: `#define VBATT_MAX 0xfff`. -/
def VBATT_MAX : Nat := 0xfff

/-- Raw reading of an empty battery: `#define VBATT_MIN 0x888`. -/
def VBATT_MIN : Nat := 0x888

/-- Modelled from the spec: the largest result of the 12-bit converter
("0-4095"); the driver that produces the samples is not among the sources. -/
def ADC_MAX : Nat := 0xfff

/-- Constants that the file takes from headers outside the sources at hand:
`_SYS_BATTERY_MAX` (sifteo/abi.h) and `UNINITIALIZED` (batterylevel.h).  Both
are used at the C type `unsigned`, hence the two range fields. -/
structure Platform where
  SYS_BATTERY_MAX : Nat
  UNINITIALIZED : Nat
  sysMaxFits : SYS_BATTERY_MAX < 2 ^ 32
  uninitFits : UNINITIALIZED < 2 ^ 32

/-- Modelled from the spec: the two-argument `MIN` of macros.h, which is not
among the sources; it yields the smaller of its arguments. -/
def MIN (a b : Nat) : Nat := if a < b then a else b

/-! ## Collaborators -/

/-- Mode of the measured pin; `init` selects `IN_ANALOG`. -/
inductive PinControl where
  | IN_ANALOG
  | other (code : Nat)
  deriving DecidableEq

/-- Sample rate of the ADC channel; `init` selects `SampleRate_239_5`. -/
inductive SampleRate where
  | SampleRate_239_5
  | other (code : Nat)
  deriving DecidableEq

/-- Completion handler registered for the ADC channel. -/
inductive Callback where
  | adcCallback
  | other (ident : Nat)
  deriving DecidableEq

/-- Calls into collaborators that are actions rather than settings. -/
inductive Call where
  | beginSample
  | shutdownIfVBattIsCritical (vbatt : Nat) (limit : Nat)
  deriving DecidableEq

/-- A call into a collaborator together with the value `lastReading` holds at
the moment the call is made, which is what the collaborator would read through
`raw()` while it runs. -/
structure CallRecord where
  call : Call
  lastReadingAtCall : Nat
  deriving DecidableEq

/-! ## State -/

/-- The stored sample together with what the module has done to its
collaborators: pin mode, registered callback and sample rate of the battery
channel, and the calls made so far, oldest first. -/
structure State where
  lastReading : Nat
  vbattMeasControl : Option PinControl
  channelCallback : Option Callback
  channelSampleRate : Option SampleRate
  calls : List CallRecord
  deriving DecidableEq

/-- A state before anything has run: static storage is zeroed and no
collaborator has been touched. -/
def powerOn : State :=
  { lastReading := 0, vbattMeasControl := none, channelCallback := none,
    channelSampleRate := none, calls := [] }

/-! ## Operations -/

/-- Embedding of `BatteryLevel::init`. -/
def init (K : Platform) (st : State) : State :=
  { st with
    lastReading := K.UNINITIALIZED
    vbattMeasControl := some PinControl.IN_ANALOG
    channelCallback := some Callback.adcCallback
    channelSampleRate := some SampleRate.SampleRate_239_5 }

/-- Embedding of `BatteryLevel::raw`. -/
def raw (st : State) : Nat := st.lastReading

/-- Embedding of `BatteryLevel::vsys`; the state is an argument only so that
the result can be compared across states. -/
def vsys (K : Platform) (_st : State) : Nat := K.SYS_BATTERY_MAX

/-- The constant sub-expression `_SYS_BATTERY_MAX/(VBATT_MAX-VBATT_MIN)` of
`scaled`: an integer division of compile-time constants. -/
def scaleFactor (K : Platform) : Nat := K.SYS_BATTERY_MAX / (VBATT_MAX - VBATT_MIN)

/-- The sub-expression `MIN(lastReading, lastReading - VBATT_MIN)` of `scaled`. -/
def clampedDistance (st : State) : Nat :=
  MIN st.lastReading (usub st.lastReading VBATT_MIN)

/-- Embedding of `BatteryLevel::scaled`. -/
def scaled (K : Platform) (st : State) : Nat :=
  umul (clampedDistance st) (scaleFactor K)

/-- Calling out to a collaborator: the call goes to the end of the record,
stamped with the sample stored in the state the call is made from. -/
def callOut (c : Call) (st : State) : State :=
  { st with calls := st.calls ++ [{ call := c, lastReadingAtCall := st.lastReading }] }

/-- Embedding of `BatteryLevel::beginCapture`. -/
def beginCapture (st : State) : State :=
  callOut Call.beginSample st

/-- Embedding of `BatteryLevel::adcCallback`: the sample is stored, then the
power manager is called with the stored value read back.  The parameter is a
`uint16_t`, so the samples the code can receive are those below `2 ^ 16`. -/
def adcCallback (sample : Nat) (st : State) : State :=
  let stored : State := { st with lastReading := sample }
  callOut (Call.shutdownIfVBattIsCritical stored.lastReading VBATT_MIN) stored

/-! ## Sequences of operations -/

/-- The entry points of the module. -/
inductive Op where
  | init
  | beginCapture
  | raw
  | vsys
  | scaled
  | adcCallback (sample : Nat)
  deriving DecidableEq

/-- Effect of one entry point on the state; the three queries leave it alone. -/
def step (K : Platform) (st : State) : Op → State
  | Op.init => init K st
  | Op.beginCapture => beginCapture st
  | Op.raw => st
  | Op.vsys => st
  | Op.scaled => st
  | Op.adcCallback sample => adcCallback sample st

/-- Effect of a sequence of entry points, first element first. -/
def run (K : Platform) (st : State) (ops : List Op) : State :=
  ops.foldl (step K) st

/-- Whether an entry point is the delivery of a completed capture. -/
def Op.isCallback : Op → Bool
  | Op.adcCallback _ => true
  | _ => false

/-- The argument pairs of the shutdown checks among the recorded calls, oldest
first. -/
def shutdownChecks (st : State) : List (Nat × Nat) :=
  st.calls.filterMap fun r =>
    match r.call with
    | Call.shutdownIfVBattIsCritical v l => some (v, l)
    | Call.beginSample => none

/-- System-max 255, the value of the spec's concrete scenario. -/
def abi255 : Platform :=
  { SYS_BATTERY_MAX := 255, UNINITIALIZED := 0xffff,
    sysMaxFits := by norm_num, uninitFits := by norm_num }

/-- System-max 0x10000. -/
def abi65536 : Platform :=
  { SYS_BATTERY_MAX := 0x10000, UNINITIALIZED := 0xffff,
    sysMaxFits := by norm_num, uninitFits := by norm_num }

/-! ## Basic facts -/

theorem usub_of_le {a b : Nat} (hb : b ≤ a) (ha : a < 2 ^ 32) : usub a b = a - b := by
  unfold usub UINT_RANGE
  have hb2 : b < 2 ^ 32 := lt_of_le_of_lt hb ha
  rw [Nat.mod_eq_of_lt ha, Nat.mod_eq_of_lt hb2]
  omega

theorem usub_of_lt {a b : Nat} (hab : a < b) (hb : b < 2 ^ 32) :
    usub a b = a + 2 ^ 32 - b := by
  unfold usub UINT_RANGE
  have ha : a < 2 ^ 32 := lt_trans hab hb
  rw [Nat.mod_eq_of_lt ha, Nat.mod_eq_of_lt hb]
  omega

theorem clampedDistance_of_ge (st : State) (hmin : VBATT_MIN ≤ st.lastReading)
    (h32 : st.lastReading < 2 ^ 32) :
    clampedDistance st = st.lastReading - VBATT_MIN := by
  unfold clampedDistance MIN
  rw [usub_of_le hmin h32]
  unfold VBATT_MIN at *
  split <;> omega

theorem clampedDistance_of_lt (st : State) (hmin : st.lastReading < VBATT_MIN) :
    clampedDistance st = st.lastReading := by
  unfold clampedDistance MIN
  rw [usub_of_lt hmin (by unfold VBATT_MIN; norm_num)]
  unfold VBATT_MIN at *
  split <;> omega

theorem umul_of_lt {a b : Nat} (h : a * b < 2 ^ 32) : umul a b = a * b := by
  unfold umul UINT_RANGE
  exact Nat.mod_eq_of_lt h

theorem umul_le (a b : Nat) : umul a b ≤ a * b := by
  unfold umul
  exact Nat.mod_le _ _

theorem span_eq : VBATT_MAX - VBATT_MIN = 1911 := by decide

theorem scaleFactor_mul_le (K : Platform) :
    (VBATT_MAX - VBATT_MIN) * scaleFactor K ≤ K.SYS_BATTERY_MAX := by
  unfold scaleFactor
  exact Nat.mul_div_le _ _

theorem run_append (K : Platform) (st : State) (xs ys : List Op) :
    run K st (xs ++ ys) = run K (run K st xs) ys := by
  unfold run
  exact List.foldl_append _ _ _ _

theorem run_cons (K : Platform) (st : State) (o : Op) (ops : List Op) :
    run K st (o :: ops) = run K (step K st o) ops := rfl

/-- Every entry point other than the callback and `init` keeps the stored sample. -/
theorem step_keeps_lastReading (K : Platform) (st : State) (o : Op)
    (hcb : o.isCallback = false) (hinit : o ≠ Op.init) :
    (step K st o).lastReading = st.lastReading := by
  cases o with
  | init => exact absurd rfl hinit
  | adcCallback s => simp [Op.isCallback] at hcb
  | beginCapture => rfl
  | raw => rfl
  | vsys => rfl
  | scaled => rfl

/-- A system-max of at most 0x10000 keeps the product of `scaled` below
`2 ^ 32` for every 16-bit sample. -/
theorem fits_of_le (K : Platform) (h : K.SYS_BATTERY_MAX ≤ 0x10000) :
    (0xffff - VBATT_MIN) * (K.SYS_BATTERY_MAX / (VBATT_MAX - VBATT_MIN)) < 2 ^ 32 := by
  rw [span_eq]
  have hq : K.SYS_BATTERY_MAX / 1911 ≤ 34 := by omega
  calc (0xffff - VBATT_MIN) * (K.SYS_BATTERY_MAX / 1911)
      ≤ (0xffff - VBATT_MIN) * 34 := Nat.mul_le_mul_left _ hq
    _ < 2 ^ 32 := by decide

/-- At or above `VBATT_MIN`, for a 16-bit stored sample and a scale factor
that keeps the product below `2 ^ 32`, `scaled` is the plain product. -/
theorem scaled_of_ge (K : Platform) (st : State) (hmin : VBATT_MIN ≤ st.lastReading)
    (h16 : st.lastReading < 2 ^ 16)
    (hfit : (0xffff - VBATT_MIN) * (K.SYS_BATTERY_MAX / (VBATT_MAX - VBATT_MIN)) < 2 ^ 32) :
    scaled K st = (st.lastReading - VBATT_MIN) * (K.SYS_BATTERY_MAX / (VBATT_MAX - VBATT_MIN)) := by
  unfold scaled
  rw [clampedDistance_of_ge st hmin (by omega)]
  apply umul_of_lt
  refine lt_of_le_of_lt (Nat.mul_le_mul_right _ ?_) hfit
  omega

/-- Running entry points other than `init`, all of whose delivered samples are
at most `B`: either the stored sample ends at most `B`, or no capture completed
and the stored sample is what it was. -/
theorem lastReading_run (K : Platform) (B : Nat) (l : List Op) :
    ∀ s : State, (∀ x, Op.adcCallback x ∈ l → x ≤ B) → Op.init ∉ l →
      (run K s l).lastReading ≤ B ∨
        ((∀ x, Op.adcCallback x ∉ l) ∧ (run K s l).lastReading = s.lastReading) := by
  induction l with
  | nil =>
    intro s _ _
    exact Or.inr (And.intro (fun x hx => by cases hx) rfl)
  | cons o rest ih =>
    intro s hl hi
    rw [run_cons]
    have hrest : ∀ x, Op.adcCallback x ∈ rest → x ≤ B :=
      fun x hx => hl x (List.mem_cons_of_mem _ hx)
    have hirest : Op.init ∉ rest := fun h => hi (List.mem_cons_of_mem _ h)
    have ho : o ≠ Op.init := fun h => hi (h ▸ List.mem_cons_self _ _)
    rcases ih (step K s o) hrest hirest with h | ⟨hnone, hsame⟩
    · exact Or.inl h
    · cases hcb : o.isCallback with
      | false =>
        refine Or.inr ⟨?_, ?_⟩
        · intro x hx
          rcases List.mem_cons.mp hx with h | h
          · rw [← h] at hcb
            simp [Op.isCallback] at hcb
          · exact hnone x h
        · rw [hsame, step_keeps_lastReading K s o hcb ho]
      | true =>
        cases o with
        | adcCallback x =>
          refine Or.inl ?_
          rw [hsame]
          exact hl x (List.mem_cons_self _ _)
        | init => simp [Op.isCallback] at hcb
        | beginCapture => simp [Op.isCallback] at hcb
        | raw => simp [Op.isCallback] at hcb
        | vsys => simp [Op.isCallback] at hcb
        | scaled => simp [Op.isCallback] at hcb

/-- A sequence with no delivery and no `init` keeps the stored sample. -/
theorem run_keeps_lastReading (K : Platform) (l : List Op) :
    ∀ st : State, (∀ o ∈ l, o.isCallback = false ∧ o ≠ Op.init) →
      (run K st l).lastReading = st.lastReading := by
  induction l with
  | nil => intro st _; rfl
  | cons o rest ih =>
    intro st hl
    rw [run_cons, ih (step K st o) (fun x hx => hl x (List.mem_cons_of_mem _ hx))]
    have ho := hl o (List.mem_cons_self _ _)
    exact step_keeps_lastReading K st o ho.1 ho.2

/-! ## C1: the reading of a full battery -/

/-- C1, as stated, fails: with system-max 255 the full-battery sample 0xfff
scales to 0, not to 255. -/
theorem scaled_at_vbatt_max_counterexample :
    scaled abi255 (adcCallback 0xfff powerOn) = 0 ∧
      scaled abi255 (adcCallback 0xfff powerOn) ≠ vsys abi255 (adcCallback 0xfff powerOn) := by
  decide

/-- C1, amended: after `adcCallback(VBATT_MAX)` the value of `scaled()` is the
calibrated span times the integer scale factor, that is system-max minus its
remainder modulo the span; it never exceeds system-max and equals it exactly
when the span divides system-max. -/
theorem scaled_at_vbatt_max (K : Platform) (st : State) :
    scaled K (adcCallback VBATT_MAX st)
        = (VBATT_MAX - VBATT_MIN) * (K.SYS_BATTERY_MAX / (VBATT_MAX - VBATT_MIN)) ∧
      scaled K (adcCallback VBATT_MAX st)
        = K.SYS_BATTERY_MAX - K.SYS_BATTERY_MAX % (VBATT_MAX - VBATT_MIN) ∧
      scaled K (adcCallback VBATT_MAX st) ≤ vsys K (adcCallback VBATT_MAX st) ∧
      (scaled K (adcCallback VBATT_MAX st) = K.SYS_BATTERY_MAX ↔
        (VBATT_MAX - VBATT_MIN) ∣ K.SYS_BATTERY_MAX) := by
  have hd : clampedDistance (adcCallback VBATT_MAX st) = VBATT_MAX - VBATT_MIN :=
    clampedDistance_of_ge _ (show VBATT_MIN ≤ VBATT_MAX by decide)
      (show VBATT_MAX < 2 ^ 32 by decide)
  have hle := scaleFactor_mul_le K
  have hfit := K.sysMaxFits
  have hs : scaled K (adcCallback VBATT_MAX st)
      = (VBATT_MAX - VBATT_MIN) * (K.SYS_BATTERY_MAX / (VBATT_MAX - VBATT_MIN)) := by
    unfold scaled
    rw [hd, umul_of_lt (lt_of_le_of_lt hle hfit)]
    rfl
  rw [hs, Nat.dvd_iff_mod_eq_zero]
  unfold vsys
  rw [span_eq]
  refine ⟨rfl, ?_, ?_, ?_⟩ <;> omega

/-! ## C2: readings at or below the empty-battery threshold -/

/-- C2, evaluated at the sample 0x800: the subtraction wraps to 0xffffff78, so
`MIN` keeps the sample itself and the distance is 0x800, not zero; with
system-max 0x10000 `scaled()` is 0x800 * 34 = 69632.  At 0x888 the distance is
zero, and with system-max 255 the scale factor is zero. -/
theorem scaled_below_min_not_clamped :
    usub 0x800 VBATT_MIN = 0xffffff78 ∧
      clampedDistance (adcCallback 0x800 powerOn) = 0x800 ∧
      scaled abi65536 (adcCallback 0x800 powerOn) = 69632 ∧
      clampedDistance (adcCallback 0x888 powerOn) = 0 ∧
      scaled abi65536 (adcCallback 0x888 powerOn) = 0 ∧
      scaled abi255 (adcCallback 0x800 powerOn) = 0 := by
  decide

/-! ## C3: the callback stores, then checks -/

/-- C3: `adcCallback(s)` first overwrites the stored sample with `s` and then
invokes the shutdown check exactly once with arguments `(s, VBATT_MIN)`: the
record of calls grows by exactly one entry, that check, and the entry shows
that the stored sample was already `s` when the call was made.  The first
argument is the new sample whatever was stored before, `raw()` afterwards is
`s`, and nothing else in the state changes. -/
theorem adcCallback_stores_then_checks (s : Nat) (st : State) :
    raw (adcCallback s st) = s ∧
      (adcCallback s st).calls
        = st.calls ++ [{ call := Call.shutdownIfVBattIsCritical s VBATT_MIN,
                         lastReadingAtCall := s }] ∧
      shutdownChecks (adcCallback s st) = shutdownChecks st ++ [(s, VBATT_MIN)] ∧
      (adcCallback s st).vbattMeasControl = st.vbattMeasControl ∧
      (adcCallback s st).channelCallback = st.channelCallback ∧
      (adcCallback s st).channelSampleRate = st.channelSampleRate := by
  refine ⟨rfl, rfl, ?_, rfl, rfl, rfl⟩
  simp [shutdownChecks, adcCallback, callOut, List.filterMap_append]

/-! ## C4: monotonicity above the threshold -/

/-- C4: for 16-bit samples `s1 <= s2` with `VBATT_MIN <= s1`, `scaled()` after
`adcCallback(s1)` is at most `scaled()` after `adcCallback(s2)`, whatever the
states the two callbacks start from.  The system-max constant is a parameter;
the hypothesis on it says that the product at the largest sample fits in 32
bits, which holds for every system-max up to 0x10000 (255 included). -/
theorem scaled_monotone_above_min (K : Platform) (st1 st2 : State) (s1 s2 : Nat)
    (hfit : (0xffff - VBATT_MIN) * (K.SYS_BATTERY_MAX / (VBATT_MAX - VBATT_MIN)) < 2 ^ 32)
    (hmin : VBATT_MIN ≤ s1) (hle : s1 ≤ s2) (h16 : s2 < 2 ^ 16) :
    scaled K (adcCallback s1 st1) ≤ scaled K (adcCallback s2 st2) := by
  have e1 := scaled_of_ge K (adcCallback s1 st1)
    (show VBATT_MIN ≤ s1 from hmin) (show s1 < 2 ^ 16 from lt_of_le_of_lt hle h16) hfit
  have e2 := scaled_of_ge K (adcCallback s2 st2)
    (show VBATT_MIN ≤ s2 from le_trans hmin hle) (show s2 < 2 ^ 16 from h16) hfit
  rw [e1, e2]
  apply Nat.mul_le_mul_right
  show s1 - VBATT_MIN ≤ s2 - VBATT_MIN
  omega

/-- Witness for C4: samples 0x900 and 0xfff with system-max 0x10000. -/
theorem scaled_monotone_above_min_witness :
    (VBATT_MIN ≤ 0x900 ∧ 0x900 ≤ 0xfff ∧ 0xfff < 2 ^ 16) ∧
      scaled abi65536 (adcCallback 0x900 powerOn)
        ≤ scaled abi65536 (adcCallback 0xfff (adcCallback 0x900 powerOn)) :=
  ⟨by decide,
    scaled_monotone_above_min abi65536 powerOn (adcCallback 0x900 powerOn) 0x900 0xfff
      (by decide) (by decide) (by decide) (by decide)⟩

/-! ## C5: only the most recent sample is kept -/

/-- C5: after `adcCallback(s1)` and then `adcCallback(s2)`, from any state,
`raw()` is `s2`; and after any non-empty sequence of callbacks `raw()` is the
last sample of the sequence, whatever the starting state and the earlier
samples. -/
theorem raw_is_last_sample (K : Platform) (st : State) (s1 s2 : Nat) (samples : List Nat)
    (hne : samples ≠ []) :
    raw (adcCallback s2 (adcCallback s1 st)) = s2 ∧
      raw (run K st (samples.map Op.adcCallback)) = samples.getLast hne := by
  refine ⟨rfl, ?_⟩
  have hsplit := List.dropLast_append_getLast hne
  have hrun : run K st (samples.map Op.adcCallback)
      = run K st ((samples.dropLast ++ [samples.getLast hne]).map Op.adcCallback) := by
    rw [hsplit]
  rw [hrun, List.map_append, run_append]
  rfl

/-- Witness for C5: the samples 7, 0x900, 0x123 delivered from power-on. -/
theorem raw_is_last_sample_witness :
    raw (adcCallback 0x123 (adcCallback 0x900 powerOn)) = 0x123 ∧
      raw (run abi255 powerOn ([7, 0x900, 0x123].map Op.adcCallback))
        = [7, 0x900, 0x123].getLast (by decide) :=
  raw_is_last_sample abi255 powerOn 0x900 0x123 [7, 0x900, 0x123] (by decide)

/-! ## C6: the sentinel survives until a capture completes -/

/-- C6: from any prior state, after `init()` and any sequence of entry points
that contains no `adcCallback`, `raw()` is the `UNINITIALIZED` sentinel. -/
theorem raw_uninitialized_until_capture (K : Platform) (st : State) (ops : List Op)
    (hno : ∀ o ∈ ops, o.isCallback = false) :
    raw (run K (init K st) ops) = K.UNINITIALIZED := by
  have key : ∀ (l : List Op) (s : State), (∀ o ∈ l, o.isCallback = false) →
      s.lastReading = K.UNINITIALIZED → (run K s l).lastReading = K.UNINITIALIZED := by
    intro l
    induction l with
    | nil => intro s _ hs; exact hs
    | cons o rest ih =>
      intro s hl hs
      rw [run_cons]
      apply ih
      · intro o2 ho2
        exact hl o2 (List.mem_cons_of_mem _ ho2)
      · by_cases hi : o = Op.init
        · subst hi; rfl
        · rw [step_keeps_lastReading K s o (hl o (List.mem_cons_self _ _)) hi]
          exact hs
  exact key ops (init K st) hno rfl

/-- Witness for C6: a state that already holds the sample 0x900 is
re-initialised and then queried and triggered without a completed capture. -/
theorem raw_uninitialized_until_capture_witness :
    raw (run abi255 (init abi255 (adcCallback 0x900 powerOn))
      [Op.raw, Op.beginCapture, Op.scaled, Op.vsys, Op.raw]) = 0xffff :=
  raw_uninitialized_until_capture abi255 (adcCallback 0x900 powerOn)
    [Op.raw, Op.beginCapture, Op.scaled, Op.vsys, Op.raw] (by decide)

/-! ## C7: the formula above the threshold -/

/-- C7: for a stored sample `s >= VBATT_MIN`, `MIN` selects the difference and
`scaled()` is `(s - VBATT_MIN) * (system-max / (VBATT_MAX - VBATT_MIN))` in
32-bit unsigned arithmetic, the truncating division of the two constants being
taken before the multiplication; for a 16-bit sample and a scale factor that
keeps the product below `2 ^ 32` this is the product over the naturals. -/
theorem scaled_formula_above_min (K : Platform) (st : State)
    (hmin : VBATT_MIN ≤ st.lastReading) (h32 : st.lastReading < 2 ^ 32) :
    clampedDistance st = st.lastReading - VBATT_MIN ∧
      scaled K st
        = ((st.lastReading - VBATT_MIN) * (K.SYS_BATTERY_MAX / (VBATT_MAX - VBATT_MIN)))
            % 2 ^ 32 ∧
      (st.lastReading < 2 ^ 16 →
        (0xffff - VBATT_MIN) * (K.SYS_BATTERY_MAX / (VBATT_MAX - VBATT_MIN)) < 2 ^ 32 →
        scaled K st
          = (st.lastReading - VBATT_MIN) * (K.SYS_BATTERY_MAX / (VBATT_MAX - VBATT_MIN))) := by
  refine ⟨clampedDistance_of_ge st hmin h32, ?_, fun h16 hfit => scaled_of_ge K st hmin h16 hfit⟩
  unfold scaled
  rw [clampedDistance_of_ge st hmin h32]
  rfl

/-- Witness for C7: the stored sample 0xa00 with system-max 0x10000 scales to
`(0xa00 - 0x888) * 34`. -/
theorem scaled_formula_above_min_witness :
    (VBATT_MIN ≤ (adcCallback 0xa00 powerOn).lastReading ∧
        (adcCallback 0xa00 powerOn).lastReading < 2 ^ 32) ∧
      scaled abi65536 (adcCallback 0xa00 powerOn) = (0xa00 - 0x888) * 34 :=
  ⟨by decide,
    (scaled_formula_above_min abi65536 (adcCallback 0xa00 powerOn) (by decide) (by decide)).2.2
      (by decide) (by decide)⟩

/-! ## C8: the calibrated range maps into the unit range -/

/-- C8: for a stored sample `s` with `VBATT_MIN <= s <= VBATT_MAX`, `scaled()`
lies in `[0, system-max]` and never exceeds what `vsys()` returns. -/
theorem scaled_within_vsys (K : Platform) (st : State)
    (hmin : VBATT_MIN ≤ st.lastReading) (hmax : st.lastReading ≤ VBATT_MAX) :
    0 ≤ scaled K st ∧ scaled K st ≤ K.SYS_BATTERY_MAX ∧ scaled K st ≤ vsys K st := by
  have h32 : st.lastReading < 2 ^ 32 :=
    lt_of_le_of_lt hmax (show VBATT_MAX < 2 ^ 32 by decide)
  have hb : scaled K st ≤ K.SYS_BATTERY_MAX := by
    unfold scaled
    rw [clampedDistance_of_ge st hmin h32]
    refine le_trans (umul_le _ _) (le_trans (Nat.mul_le_mul_right _ ?_) (scaleFactor_mul_le K))
    omega
  exact ⟨Nat.zero_le _, hb, hb⟩

/-- Witness for C8: the stored sample 0xc00 with system-max 0x10000. -/
theorem scaled_within_vsys_witness :
    (VBATT_MIN ≤ (adcCallback 0xc00 powerOn).lastReading ∧
        (adcCallback 0xc00 powerOn).lastReading ≤ VBATT_MAX) ∧
      scaled abi65536 (adcCallback 0xc00 powerOn) ≤ vsys abi65536 (adcCallback 0xc00 powerOn) :=
  ⟨by decide,
    (scaled_within_vsys abi65536 (adcCallback 0xc00 powerOn) (by decide) (by decide)).2.2⟩

/-! ## C9: range of the stored sample -/

/-- C9, as stated, fails: the 16-bit sample 0xffff delivered after `init()` is
stored verbatim, and it is above the 12-bit maximum 0xfff.  A second `init()`
after a capture also puts the sentinel back, whatever was captured. -/
theorem stored_sample_above_adc_max :
    (0xffff : Nat) < 2 ^ 16 ∧
      raw (run abi255 (init abi255 powerOn) [Op.adcCallback 0xffff]) = 0xffff ∧
      ¬ raw (run abi255 (init abi255 powerOn) [Op.adcCallback 0xffff]) ≤ ADC_MAX ∧
      raw (run abi255 (init abi255 powerOn) [Op.adcCallback 0x900, Op.init])
        = abi255.UNINITIALIZED := by
  decide

/-- C9, amended: in every state reached from `init()` by any sequence of entry
points in which at least one `adcCallback` has completed since the most recent
`init()`, the stored sample is the sample of the last completed `adcCallback`,
verbatim.  Such a sequence is an arbitrary part `pre`, the last delivery
`adcCallback(s)`, and a part `post` with no further delivery and no `init()`.
The stored sample therefore lies in `[0, 0xffff]` for every value the 16-bit
parameter can carry, and in `[0, ADC max]` exactly when the last delivered
sample does. -/
theorem stored_sample_is_last_delivered (K : Platform) (st : State)
    (pre post : List Op) (s : Nat)
    (hpost : ∀ o ∈ post, o.isCallback = false ∧ o ≠ Op.init) :
    raw (run K (init K st) (pre ++ Op.adcCallback s :: post)) = s ∧
      (s < 2 ^ 16 →
        0 ≤ raw (run K (init K st) (pre ++ Op.adcCallback s :: post)) ∧
          raw (run K (init K st) (pre ++ Op.adcCallback s :: post)) ≤ 0xffff) ∧
      (raw (run K (init K st) (pre ++ Op.adcCallback s :: post)) ≤ ADC_MAX ↔ s ≤ ADC_MAX) := by
  have heq : raw (run K (init K st) (pre ++ Op.adcCallback s :: post)) = s := by
    rw [run_append, run_cons]
    exact run_keeps_lastReading K post _ hpost
  rw [heq]
  exact ⟨rfl, fun h16 => ⟨Nat.zero_le _, by omega⟩, Iff.rfl⟩

/-- Witness for C9: after a capture of 0xffff, a second `init()` and a capture
of 0x900, the sample 0xfff is delivered and then only queries and a capture
trigger follow; the stored sample is 0xfff. -/
theorem stored_sample_is_last_delivered_witness :
    raw (run abi255 (init abi255 powerOn)
      ([Op.adcCallback 0xffff, Op.init, Op.beginCapture, Op.adcCallback 0x900, Op.raw] ++
        Op.adcCallback 0xfff :: [Op.scaled, Op.beginCapture, Op.vsys])) = 0xfff :=
  (stored_sample_is_last_delivered abi255 powerOn
    [Op.adcCallback 0xffff, Op.init, Op.beginCapture, Op.adcCallback 0x900, Op.raw]
    [Op.scaled, Op.beginCapture, Op.vsys] 0xfff (by decide)).1

/-! ## C10: vsys is constant -/

/-- C10: `vsys()` returns the system-max constant in every state; the result
is the same before any capture, after `init()`, after any sequence of
`adcCallback` invocations and after any sequence of entry points at all. -/
theorem vsys_constant (K : Platform) (st : State) (samples : List Nat) (ops : List Op) :
    vsys K st = K.SYS_BATTERY_MAX ∧
      vsys K (init K st) = K.SYS_BATTERY_MAX ∧
      vsys K (run K st (samples.map Op.adcCallback)) = K.SYS_BATTERY_MAX ∧
      vsys K (run K st ops) = vsys K st :=
  ⟨rfl, rfl, rfl, rfl⟩

/-! ## Further facts about single steps -/

/-- Every entry point other than the callback leaves the record of shutdown
checks as it was. -/
theorem step_keeps_shutdownChecks (K : Platform) (st : State) (o : Op)
    (hcb : o.isCallback = false) :
    shutdownChecks (step K st o) = shutdownChecks st := by
  cases o with
  | adcCallback s => simp [Op.isCallback] at hcb
  | beginCapture => simp [shutdownChecks, step, beginCapture, callOut, List.filterMap_append]
  | init => rfl
  | raw => rfl
  | vsys => rfl
  | scaled => rfl

/-- The result of `scaled` depends on the state through the stored sample only. -/
theorem scaled_congr (K : Platform) (st1 st2 : State)
    (h : st1.lastReading = st2.lastReading) : scaled K st1 = scaled K st2 := by
  unfold scaled clampedDistance
  rw [h]

/-- A sequence made of the three queries and `beginCapture` keeps the stored
sample and the record of shutdown checks. -/
theorem run_queries (K : Platform) (l : List Op) :
    ∀ st : State,
      (∀ o ∈ l, o = Op.raw ∨ o = Op.vsys ∨ o = Op.scaled ∨ o = Op.beginCapture) →
      (run K st l).lastReading = st.lastReading ∧
        shutdownChecks (run K st l) = shutdownChecks st := by
  induction l with
  | nil => intro st _; exact ⟨rfl, rfl⟩
  | cons o rest ih =>
    intro st hl
    rw [run_cons]
    have hrest := ih (step K st o) (fun x hx => hl x (List.mem_cons_of_mem _ hx))
    have ho := hl o (List.mem_cons_self _ _)
    have hcb : o.isCallback = false := by
      rcases ho with h | h | h | h <;> subst h <;> rfl
    have hni : o ≠ Op.init := by
      rcases ho with h | h | h | h <;> subst h <;> decide
    rw [hrest.1, hrest.2, step_keeps_lastReading K st o hcb hni,
      step_keeps_shutdownChecks K st o hcb]
    exact ⟨rfl, rfl⟩

/-! ## C11: the queries and the capture trigger are read-only on the sample -/

/-- C11: `raw()`, `vsys()`, `scaled()` and `beginCapture()`, alone or in any
sequence, leave the stored sample unchanged and add no shutdown check to the
record: `raw()` afterwards returns what it returned before, and `scaled()`
called twice in a row returns the same result. -/
theorem queries_keep_sample (K : Platform) (st : State) (ops : List Op)
    (hq : ∀ o ∈ ops, o = Op.raw ∨ o = Op.vsys ∨ o = Op.scaled ∨ o = Op.beginCapture) :
    raw (run K st ops) = raw st ∧
      shutdownChecks (run K st ops) = shutdownChecks st ∧
      scaled K (run K st ops) = scaled K st ∧
      scaled K (step K st Op.scaled) = scaled K st ∧
      (raw (step K st Op.raw) = raw st ∧ raw (step K st Op.vsys) = raw st ∧
        raw (step K st Op.scaled) = raw st ∧ raw (beginCapture st) = raw st) ∧
      shutdownChecks (beginCapture st) = shutdownChecks st := by
  have h := run_queries K ops st hq
  refine ⟨h.1, h.2, scaled_congr K _ _ h.1, rfl, ⟨rfl, rfl, rfl, rfl⟩, ?_⟩
  exact step_keeps_shutdownChecks K st Op.beginCapture rfl

/-- Witness for C11: a state holding the sample 0xa00 is queried and a capture
is triggered; the sample and the one recorded shutdown check stay. -/
theorem queries_keep_sample_witness :
    raw (run abi65536 (adcCallback 0xa00 powerOn)
        [Op.scaled, Op.beginCapture, Op.raw, Op.vsys, Op.scaled]) = 0xa00 ∧
      shutdownChecks (run abi65536 (adcCallback 0xa00 powerOn)
        [Op.scaled, Op.beginCapture, Op.raw, Op.vsys, Op.scaled]) = [(0xa00, VBATT_MIN)] :=
  ⟨(queries_keep_sample abi65536 (adcCallback 0xa00 powerOn)
      [Op.scaled, Op.beginCapture, Op.raw, Op.vsys, Op.scaled] (by decide)).1,
    (queries_keep_sample abi65536 (adcCallback 0xa00 powerOn)
      [Op.scaled, Op.beginCapture, Op.raw, Op.vsys, Op.scaled] (by decide)).2.1⟩

/-! ## C12: init is idempotent -/

/-- C12: from every starting state, `init()` followed by `init()` leaves the
same state as a single `init()`: the stored sample is the sentinel, the pin is
an analog input, `adcCallback` is the registered callback and the sample rate
is `SampleRate_239_5`; the record of calls is untouched. -/
theorem init_idempotent (K : Platform) (st : State) :
    init K (init K st) = init K st ∧
      run K st [Op.init, Op.init] = run K st [Op.init] ∧
      raw (init K st) = K.UNINITIALIZED ∧
      (init K st).vbattMeasControl = some PinControl.IN_ANALOG ∧
      (init K st).channelCallback = some Callback.adcCallback ∧
      (init K st).channelSampleRate = some SampleRate.SampleRate_239_5 ∧
      (init K st).calls = st.calls :=
  ⟨rfl, rfl, rfl, rfl, rfl, rfl, rfl⟩

/-! ## Further facts about the arithmetic of scaled -/

/-- The machine subtraction is the integer difference reduced modulo `2 ^ 32`. -/
theorem usub_eq_emod {a b : Nat} (ha : a < 2 ^ 32) (hb : b < 2 ^ 32) :
    ((usub a b : Nat) : Int) = ((a : Int) - (b : Int)) % (2 ^ 32 : Int) := by
  unfold usub UINT_RANGE
  rw [Nat.mod_eq_of_lt ha, Nat.mod_eq_of_lt hb]
  omega

/-- For a 16-bit stored sample the selected distance is at most
`0xffff - VBATT_MIN`. -/
theorem clampedDistance_le (st : State) (h16 : st.lastReading < 2 ^ 16) :
    clampedDistance st ≤ 0xffff - VBATT_MIN := by
  by_cases hmin : VBATT_MIN ≤ st.lastReading
  · rw [clampedDistance_of_ge st hmin (by omega)]
    omega
  · rw [clampedDistance_of_lt st (by omega)]
    unfold VBATT_MIN at *
    omega

/-! ## C13: which argument MIN selects -/

/-- C13: for a stored sample `s < VBATT_MIN` the 32-bit subtraction
`s - VBATT_MIN` wraps to `(s - VBATT_MIN) mod 2 ^ 32 = s + 2 ^ 32 - VBATT_MIN`,
which is strictly greater than `s`; `MIN` therefore selects `s` itself and
`scaled()` is `s * (system-max / (VBATT_MAX - VBATT_MIN))` in 32-bit
arithmetic, the product over the naturals when the scale factor keeps products
of 16-bit samples below `2 ^ 32`.  For `s >= VBATT_MIN`, `MIN` selects the
difference `s - VBATT_MIN`. -/
theorem min_selects (K : Platform) (st : State) (h32 : st.lastReading < 2 ^ 32) :
    (st.lastReading < VBATT_MIN →
      ((usub st.lastReading VBATT_MIN : Nat) : Int)
          = ((st.lastReading : Int) - (VBATT_MIN : Int)) % (2 ^ 32 : Int) ∧
        usub st.lastReading VBATT_MIN = st.lastReading + 2 ^ 32 - VBATT_MIN ∧
        st.lastReading < usub st.lastReading VBATT_MIN ∧
        MIN st.lastReading (usub st.lastReading VBATT_MIN) = st.lastReading ∧
        scaled K st
          = (st.lastReading * (K.SYS_BATTERY_MAX / (VBATT_MAX - VBATT_MIN))) % 2 ^ 32 ∧
        ((0xffff - VBATT_MIN) * (K.SYS_BATTERY_MAX / (VBATT_MAX - VBATT_MIN)) < 2 ^ 32 →
          scaled K st = st.lastReading * (K.SYS_BATTERY_MAX / (VBATT_MAX - VBATT_MIN)))) ∧
      (VBATT_MIN ≤ st.lastReading →
        MIN st.lastReading (usub st.lastReading VBATT_MIN) = st.lastReading - VBATT_MIN) := by
  have hminfit : VBATT_MIN < 2 ^ 32 := by decide
  refine ⟨fun hlt => ?_, fun hge => clampedDistance_of_ge st hge h32⟩
  have hw := usub_of_lt hlt hminfit
  have hsel : clampedDistance st = st.lastReading := clampedDistance_of_lt st hlt
  have hsc : scaled K st
      = (st.lastReading * (K.SYS_BATTERY_MAX / (VBATT_MAX - VBATT_MIN))) % 2 ^ 32 := by
    unfold scaled
    rw [hsel]
    rfl
  refine ⟨usub_eq_emod h32 hminfit, hw, ?_, hsel, hsc, fun hfit => ?_⟩
  · rw [hw]
    unfold VBATT_MIN at *
    omega
  · rw [hsc]
    apply Nat.mod_eq_of_lt
    refine lt_of_le_of_lt (Nat.mul_le_mul_right _ ?_) hfit
    unfold VBATT_MIN at *
    omega

/-- Witness for C13: the stored sample 0x800 with system-max 0x10000; the
difference wraps to 0xffffff78, `MIN` keeps 0x800 and `scaled()` is
0x800 * 34. -/
theorem min_selects_witness :
    ((adcCallback 0x800 powerOn).lastReading < VBATT_MIN ∧
        (adcCallback 0x800 powerOn).lastReading < 2 ^ 32) ∧
      usub 0x800 VBATT_MIN = 0xffffff78 ∧
      MIN 0x800 (usub 0x800 VBATT_MIN) = 0x800 ∧
      scaled abi65536 (adcCallback 0x800 powerOn) = 0x800 * 34 :=
  ⟨by decide,
    ((min_selects abi65536 (adcCallback 0x800 powerOn) (by decide)).1 (by decide)).2.1,
    ((min_selects abi65536 (adcCallback 0x800 powerOn) (by decide)).1 (by decide)).2.2.2.1,
    ((min_selects abi65536 (adcCallback 0x800 powerOn) (by decide)).1 (by decide)).2.2.2.2.2
      (by decide)⟩

/-! ## C14: a system-max below the span -/

/-- C14: when system-max is smaller than `VBATT_MAX - VBATT_MIN` the integer
scale factor is 0 and `scaled()` is 0 in every state, the one holding
`VBATT_MAX` included. -/
theorem scaled_zero_of_small_sysmax (K : Platform) (st : State)
    (hsmall : K.SYS_BATTERY_MAX < VBATT_MAX - VBATT_MIN) :
    K.SYS_BATTERY_MAX / (VBATT_MAX - VBATT_MIN) = 0 ∧
      scaled K st = 0 ∧
      scaled K (adcCallback VBATT_MAX st) = 0 := by
  have hf : scaleFactor K = 0 := Nat.div_eq_of_lt hsmall
  have hz : ∀ s : State, scaled K s = 0 := by
    intro s
    unfold scaled umul
    rw [hf, Nat.mul_zero]
    rfl
  exact ⟨hf, hz st, hz _⟩

/-- Witness for C14: system-max 255 with the default bounds, whose difference
is 0x777; the full-battery sample scales to 0. -/
theorem scaled_zero_of_small_sysmax_witness :
    abi255.SYS_BATTERY_MAX < VBATT_MAX - VBATT_MIN ∧
      VBATT_MAX - VBATT_MIN = 0x777 ∧
      abi255.SYS_BATTERY_MAX / (VBATT_MAX - VBATT_MIN) = 0 ∧
      scaled abi255 (adcCallback VBATT_MAX powerOn) = 0 :=
  ⟨by decide, by decide,
    (scaled_zero_of_small_sysmax abi255 (adcCallback VBATT_MAX powerOn) (by decide)).1,
    (scaled_zero_of_small_sysmax abi255 (adcCallback VBATT_MAX powerOn) (by decide)).2.1⟩

/-! ## C15: the multiplication does not wrap -/

/-- C15: for every 16-bit sample `s` delivered through `adcCallback`, with the
default bounds and a system-max of at most 0x10000, the product in `scaled()`
stays below `2 ^ 32`: the returned value is
`MIN(s, (s - VBATT_MIN) mod 2 ^ 32) * (system-max / (VBATT_MAX - VBATT_MIN))`
computed over the naturals. -/
theorem scaled_no_wrap (K : Platform) (st : State) (s : Nat)
    (h16 : s < 2 ^ 16) (hK : K.SYS_BATTERY_MAX ≤ 0x10000) :
    scaled K (adcCallback s st)
        = MIN s (usub s VBATT_MIN) * (K.SYS_BATTERY_MAX / (VBATT_MAX - VBATT_MIN)) ∧
      ((usub s VBATT_MIN : Nat) : Int) = ((s : Int) - (VBATT_MIN : Int)) % (2 ^ 32 : Int) ∧
      MIN s (usub s VBATT_MIN) * (K.SYS_BATTERY_MAX / (VBATT_MAX - VBATT_MIN)) < 2 ^ 32 := by
  have hd : clampedDistance (adcCallback s st) ≤ 0xffff - VBATT_MIN :=
    clampedDistance_le (adcCallback s st) (show s < 2 ^ 16 from h16)
  have hlt : MIN s (usub s VBATT_MIN) * (K.SYS_BATTERY_MAX / (VBATT_MAX - VBATT_MIN))
      < 2 ^ 32 :=
    lt_of_le_of_lt (Nat.mul_le_mul_right _ hd) (fits_of_le K hK)
  exact ⟨umul_of_lt hlt, usub_eq_emod (by omega) (by decide), hlt⟩

/-- Witness for C15: the largest 16-bit sample with system-max 0x10000 scales
to `(0xffff - 0x888) * 34` without wrapping. -/
theorem scaled_no_wrap_witness :
    ((0xffff : Nat) < 2 ^ 16 ∧ abi65536.SYS_BATTERY_MAX ≤ 0x10000) ∧
      scaled abi65536 (adcCallback 0xffff powerOn)
        = MIN 0xffff (usub 0xffff VBATT_MIN)
            * (abi65536.SYS_BATTERY_MAX / (VBATT_MAX - VBATT_MIN)) :=
  ⟨by decide, (scaled_no_wrap abi65536 powerOn 0xffff (by decide) (by decide)).1⟩

end BatteryLevel
